import Mathlib

/-!
# term-cal: the event rendering pipeline and the credential cache

A shallow embedding of `calendar.go` and `store.go`.

* Go's `time` package is embedded as integers: an instant is a number of
  nanoseconds since the Unix epoch, a `Duration` is an `int64` number of
  nanoseconds, a `Location` is its zone lookup function.
* `float64` results of `Duration.Hours` and `Duration.Minutes` are embedded as
  exact rationals.  `Generate` only calls them on whole numbers of minutes
  (`Round_minute_facts`), below `2^63` nanoseconds.  There the `float64` value
  of `Hours()` is within `2^-30` of the exact quotient, which is a whole number
  of hours or at least `1/60` away from the next one, and `Minutes()` is
  exact; so the comparisons with `1.0` and the truncations `int(...)` agree
  with those of the exact rationals.
* Libraries outside the repository (regexp compilation, the time zone
  database, timestamp parsing, word wrapping, colour rendering, the SQL
  driver, the calendar API) are fields of `World` or explicit parameters.
* Go map iteration order is unspecified: every `range` over `c.colorMap`
  receives the order in which the entries are visited as an input.
-/

namespace TermCal

/-! ## Go `time`: durations -/

/-- Nanoseconds in a second (`time.Second`). -/
def Second : Int := 1000000000

/-- Nanoseconds in a minute (`time.Minute`). -/
def Minute : Int := 60000000000

/-- Nanoseconds in an hour (`time.Hour`). -/
def Hour : Int := 3600000000000

/-- Smallest `int64` duration. -/
def minDuration : Int := -9223372036854775808

/-- Largest `int64` duration. -/
def maxDuration : Int := 9223372036854775807

/-- Two's complement wrap-around of `int64` arithmetic. -/
def wrap64 (x : Int) : Int :=
  (x + 9223372036854775808) % 18446744073709551616 - 9223372036854775808

/-- Conversion `uint64(x)` of an `int64`. -/
def toUint64 (x : Int) : Int := x % 18446744073709551616

/-- Go `lessThanHalf(x, y)`: `uint64(x)+uint64(x) < uint64(y)`. -/
def lessThanHalf (x y : Int) : Bool :=
  decide ((toUint64 x + toUint64 x) % 18446744073709551616 < toUint64 y)

/-- Go `Duration.Round(m)`: nearest multiple of `m`, halves away from zero,
saturating at the `int64` bounds. -/
def Duration.Round (d m : Int) : Int :=
  if m ≤ 0 then d
  else
    let r := Int.tmod d m
    if d < 0 then
      let r := -r
      if lessThanHalf r m then wrap64 (d + r)
      else
        let d1 := wrap64 (d - m + r)
        if d1 < d then d1 else minDuration
    else
      if lessThanHalf r m then wrap64 (d - r)
      else
        let d1 := wrap64 (d + m - r)
        if d1 > d then d1 else maxDuration

/-- Go `Duration.Hours()`: `float64(d / Hour) + float64(d % Hour) / (60*60*1e9)`,
as the exact value of that expression.  It is the `float64` result up to
rounding; the two may differ in their whole part only when `d` is not a whole
number of minutes, and `Generate` passes whole numbers of minutes only. -/
def Duration.Hours (d : Int) : ℚ :=
  (Int.tdiv d Hour : ℚ) + (Int.tmod d Hour : ℚ) / (60 * 60 * 1000000000)

/-- Go `Duration.Minutes()`: `float64(d / Minute) + float64(d % Minute) / (60*1e9)`,
as the exact value of that expression (see `Duration.Hours`). -/
def Duration.Minutes (d : Int) : ℚ :=
  (Int.tdiv d Minute : ℚ) + (Int.tmod d Minute : ℚ) / (60 * 1000000000)

/-- Go conversion `int(x)` of a floating point value: truncation toward zero. -/
def toInt (x : ℚ) : Int := Int.tdiv x.num x.den

/-! ## Go `time`: locations, instants, calendar dates -/

/-- The result of `Location.lookup`: the zone in force at an instant, as its
offset east of UTC in seconds and the Unix-second interval `[start, stop)` on
which it is in force. -/
structure Zone where
  offset : Int
  start : Int
  stop : Int
deriving DecidableEq, Repr

/-- A `*time.Location`, given by its `lookup` function on Unix seconds. -/
structure Location where
  lookup : Int → Zone

/-- The `alpha` bound of the `time` package (`-1 << 63`). -/
def alpha : Int := -9223372036854775808

/-- The `omega` bound of the `time` package (`1<<63 - 1`). -/
def omega : Int := 9223372036854775807

/-- Go `time.FixedZone(name, offset)`. -/
def FixedZone (offset : Int) : Location :=
  { lookup := fun _ => { offset := offset, start := alpha, stop := omega } }

/-- Go `time.UTC`. -/
def UTC : Location :=
  { lookup := fun _ => { offset := 0, start := alpha, stop := omega } }

/-- A `time.Time` without monotonic reading: an instant (nanoseconds since the
Unix epoch) and the location it is presented in. -/
structure Time where
  ns : Int
  loc : Location

/-- Whole Unix seconds of an instant. -/
def Time.unixSec (t : Time) : Int := t.ns / 1000000000

/-- Go `Time.In(loc)`. -/
def Time.In (t : Time) (l : Location) : Time := { t with loc := l }

/-- Seconds since the Unix epoch on the wall clock of the location of `t`. -/
def Time.wallSec (t : Time) : Int := t.unixSec + (t.loc.lookup t.unixSec).offset

/-- Proleptic Gregorian date `(year, month, day)` of a day number counted from
1970-01-01. -/
def civilFromDays (days : Int) : Int × Int × Int :=
  let z := days + 719468
  let era := z / 146097
  let doe := z - era * 146097
  let yoe := (doe - doe / 1460 + doe / 36524 - doe / 146096) / 365
  let y := yoe + era * 400
  let doy := doe - (365 * yoe + yoe / 4 - yoe / 100)
  let mp := (5 * doy + 2) / 153
  let d := doy - (153 * mp + 2) / 5 + 1
  let m := if mp < 10 then mp + 3 else mp - 9
  (if m ≤ 2 then y + 1 else y, m, d)

/-- Day number counted from 1970-01-01 of a proleptic Gregorian date. -/
def daysFromCivil (y m d : Int) : Int :=
  let y1 := if m ≤ 2 then y - 1 else y
  let era := y1 / 400
  let yoe := y1 - era * 400
  let doy := (153 * (if m > 2 then m - 3 else m + 9) + 2) / 5 + d - 1
  let doe := yoe * 365 + yoe / 4 - yoe / 100 + doy
  era * 146097 + doe - 719468

/-- Go `Time.Date()`: year, month and day in the location of `t`. -/
def Time.Date (t : Time) : Int × Int × Int := civilFromDays (t.wallSec / 86400)

/-- Go `time.Date(year, month, day, 0, 0, 0, 0, loc)` for a valid date, which
is what `time.ParseInLocation("2006-01-02", value, loc)` returns: the offset is
looked up at the wall-clock value taken as UTC and looked up again when the
corrected instant leaves the zone found first. -/
def Date (y m d : Int) (loc : Location) : Time :=
  let unix := daysFromCivil y m d * 86400
  let z := loc.lookup unix
  let unix1 :=
    if z.offset ≠ 0 then
      let utc := unix - z.offset
      let offset := if utc < z.start ∨ utc ≥ z.stop then (loc.lookup utc).offset else z.offset
      unix - offset
    else unix
  { ns := unix1 * 1000000000, loc := loc }

/-- The zero `time.Time` (January 1, year 1, 00:00:00 UTC). -/
def zeroTime : Time := { ns := -62135596800 * 1000000000, loc := UTC }

/-- Go `Time.Sub`: the difference of two instants, saturating at the bounds of
`Duration`. -/
def Time.Sub (t : Time) (u : Int) : Int :=
  let d := t.ns - u
  if d < minDuration then minDuration else if d > maxDuration then maxDuration else d

/-- Go `time.Until(t)`, with the clock reading `now` made explicit. -/
def Until (t : Time) (now : Int) : Int := t.Sub now

/-- Three-letter weekday names, Sunday first. -/
def shortDayNames : List String := ["Sun", "Mon", "Tue", "Wed", "Thu", "Fri", "Sat"]

/-- Three-letter month names. -/
def shortMonthNames : List String :=
  ["Jan", "Feb", "Mar", "Apr", "May", "Jun", "Jul", "Aug", "Sep", "Oct", "Nov", "Dec"]

/-- Two-digit zero padded decimal. -/
def pad2 (n : Int) : String :=
  if n < 10 then "0" ++ toString n else toString n

/-- The two output layouts `Generate` uses. -/
inductive OutFmt where
  | timed
  | allDay
deriving DecidableEq, Repr

/-- Go `Time.Format` for the layouts `"Mon, Jan 02, 15:04"` (`OutFmt.timed`)
and `"Mon, Jan 02,"` (`OutFmt.allDay`). -/
def Time.Format (t : Time) (f : OutFmt) : String :=
  let w := t.wallSec
  let days := w / 86400
  let secs := w % 86400
  let ymd := civilFromDays days
  let wd := shortDayNames.getD (((days + 4) % 7).toNat) ""
  let mo := shortMonthNames.getD ((ymd.2.1 - 1).toNat) ""
  let stem := wd ++ ", " ++ mo ++ " " ++ pad2 ymd.2.2 ++ ","
  match f with
  | .allDay => stem
  | .timed => stem ++ " " ++ pad2 (secs / 3600) ++ ":" ++ pad2 (secs % 3600 / 60)

/-- Go `time.ParseInLocation(time.RFC3339, value, l)` after the textual parse:
`ns` is the instant read, `zone` is `none` for a `Z` suffix and the numeric
offset in seconds otherwise.  A `Z` gives a time in UTC.  For a numeric offset
the package documents: "if the offset corresponds to a time zone used by the
given location, then Parse uses that location and zone in the returned time;
otherwise it records the time as being in a fabricated location with time
fixed at the given zone offset". -/
def locateStamp (ns : Int) (zone : Option Int) (l : Location) : Time :=
  match zone with
  | none => { ns := ns, loc := UTC }
  | some off =>
    if (l.lookup (ns / 1000000000)).offset = off then { ns := ns, loc := l }
    else { ns := ns, loc := FixedZone off }

/-! ## `store.go` -/

/-- The fields of `oauth2.Token` that are stored. -/
structure Token where
  AccessToken : String
  TokenType : String
  RefreshToken : String
  Expiry : Int
deriving DecidableEq, Repr

/-- `UserData` of `store.go`. -/
structure UserData where
  ID : String
  Token : Token
deriving DecidableEq, Repr

/-- The SQL driver and JSON codec used by the store: the upsert statement, the
point query (its result is the `data` column, `none` for SQL NULL), and the
JSON encoding of a record. -/
structure Driver (DB : Type) where
  execInsert : DB → String → String → Except String DB
  queryRow : DB → String → Except String (Option String)
  jsonEncode : UserData → String
  jsonDecode : String → Option UserData

/-- `UserDataCache` of `store.go`: the in-memory map and the database handle. -/
structure UserDataCache (DB : Type) where
  cache : String → Option UserData
  db : DB

/-- `UserData.Scan`: a NULL column gives the record with id `"invalid"`, a
text column is decoded from JSON. -/
def UserData.Scan (decode : String → Option UserData) (value : Option String) :
    Except String UserData :=
  match value with
  | none => .ok { ID := "invalid", Token := { AccessToken := "", TokenType := "", RefreshToken := "", Expiry := 0 } }
  | some v =>
    match decode v with
    | some u => .ok u
    | none => .error "Error getting credentials"

/-- `UserData.Value`: the JSON text written to the `data` column. -/
def UserData.Value (encode : UserData → String) (u : UserData) : String := encode u

/-- `UserDataCache.Get`.  On a cache miss the row is read with
`QueryRow(...).Scan(&data)`; `database/sql` returns an error of
`UserData.Scan` wrapped as
`sql: Scan error on column index 0, name "data": ...`. -/
def UserDataCache.Get {DB : Type} (drv : Driver DB) (c : UserDataCache DB) (k : String) :
    Except String UserData :=
  match c.cache k with
  | some val => .ok val
  | none =>
    match drv.queryRow c.db k with
    | .error e => .error e
    | .ok row =>
      match UserData.Scan drv.jsonDecode row with
      | .error e => .error ("sql: Scan error on column index 0, name \x22data\x22: " ++ e)
      | .ok data => .ok data

/-- `UserDataCache.Add`: the state after the call, or the error of the
database write (the cache is then untouched). -/
def UserDataCache.Add {DB : Type} (drv : Driver DB) (c : UserDataCache DB) (u : UserData) :
    Except String (UserDataCache DB) :=
  match drv.execInsert c.db u.ID (u.Value drv.jsonEncode) with
  | .error e => .error e
  | .ok db1 => .ok { cache := fun k => if k = u.ID then some u else c.cache k, db := db1 }

/-! ## `calendar.go`: requests -/

/-- A compiled `*regexp.Regexp`: its source text and its `MatchString`. -/
structure Regexp where
  expr : String
  MatchString : String → Bool

/-- `CalendarRequest` of `calendar.go`.  `colorMap` lists the map entries in
the order `Prepare` inserted them; keys are pointers to freshly compiled
expressions, so no insertion replaces an earlier one. -/
structure CalendarRequest where
  UUID : String
  MaxResults : Int
  TimeZone : String
  AllDay : Bool
  Highlights : String
  Exclude : String
  MaxWidth : Int
  NoColor : Bool
  colorMap : List (Regexp × String)
  exclude : List Regexp

/-- `NewCalendarRequest`. -/
def NewCalendarRequest (uuid : String) : CalendarRequest :=
  { UUID := uuid, MaxResults := 10, TimeZone := "America/New_York", AllDay := true,
    Highlights := "", Exclude := "", MaxWidth := 0, NoColor := false,
    colorMap := [], exclude := [] }

/-- Pieces of a character list between commas. -/
def splitCommaChars : List Char → List (List Char)
  | [] => [[]]
  | ch :: rest =>
    match splitCommaChars rest with
    | [] => [[ch]]
    | hd :: tl => if ch = ',' then [] :: hd :: tl else (ch :: hd) :: tl

/-- Go `strings.Split(s, ",")`. -/
def stringsSplitComma (s : String) : List String :=
  (splitCommaChars s.data).map String.mk

/-- The loop of `Prepare` over the exclude patterns: compile each in turn,
stop at the first error. -/
def compileAll (compile : String → Except String Regexp) :
    List String → Except String (List Regexp)
  | [] => .ok []
  | v :: rest =>
    match compile v with
    | .error e => .error e
    | .ok r1 =>
      match compileAll compile rest with
      | .error e => .error e
      | .ok rs => .ok (r1 :: rs)

/-- The loop of `Prepare` over the highlight list `h`, two entries at a time:
`h[i]` is compiled and mapped to `h[i+1]`. -/
def compilePairs (compile : String → Except String Regexp) :
    List String → Except String (List (Regexp × String))
  | p :: v :: rest =>
    match compile p with
    | .error e => .error e
    | .ok r1 =>
      match compilePairs compile rest with
      | .error e => .error e
      | .ok rs => .ok ((r1, v) :: rs)
  | _ => .ok []

/-- `CalendarRequest.Prepare`: the request after normalisation, or the error. -/
def Prepare (compile : String → Except String Regexp) (c : CalendarRequest) :
    Except String CalendarRequest :=
  if c.UUID = "" then .error "Invalid UUID"
  else
    let c1 := if c.MaxResults > 50 then { c with MaxResults := 50 } else c
    let c2 := if c1.MaxWidth = 0 then { c1 with MaxWidth := 50 } else c1
    match (if c2.Exclude ≠ "" then compileAll compile (stringsSplitComma c2.Exclude)
           else .ok []) with
    | .error e => .error e
    | .ok ex =>
      let c3 := { c2 with exclude := c2.exclude ++ ex }
      if c3.Highlights ≠ "" then
        let h := stringsSplitComma c3.Highlights
        if h.length % 2 ≠ 0 then
          .error "Invalid Highlights, (should be csv list of regex,color)"
        else
          match compilePairs compile h with
          | .error e => .error e
          | .ok hl => .ok { c3 with colorMap := c3.colorMap ++ hl }
      else .ok c3

/-! ## `calendar.go`: rendering -/

/-- The `Start` of a `calendar.Event`: `DateTime` for a timed event, `Date`
for an all-day event. -/
structure EventDateTime where
  DateTime : String
  Date : String
deriving DecidableEq, Repr

/-- An attendee of a `calendar.Event`. -/
structure EventAttendee where
  Email : String
  ResponseStatus : String
deriving DecidableEq, Repr

/-- The fields of a `calendar.Event` that `Generate` reads. -/
structure Event where
  Summary : String
  Start : EventDateTime
  Attendees : List EventAttendee
deriving DecidableEq, Repr

/-- Everything `Generate` obtains from outside `calendar.go`.

* `driver`, `userStore`: the process-wide credential store;
* `NewService`, `EventsList`: the calendar API (`EventsList` receives the
  `MaxResults` argument of the call);
* `LoadLocation`: `time.LoadLocation`;
* `nowToday i`, `nowUntil i`: the readings of `time.Now()` in iteration `i` of
  the loop, for `today` and inside `time.Until`;
* `parseRFC3339`, `parseDate`: the textual part of `time.ParseInLocation` for
  the layouts `time.RFC3339` (instant in nanoseconds and zone, `none` for `Z`)
  and `"2006-01-02"` (year, month, day);
* `wrapper`: `wordwrap.Wrapper(width, false)`;
* `sprint name`: the `SprintFunc` of the colour `name`;
* `rangeOrder i m`: the order in which `range` visits the entries of the map
  `m` in iteration `i`. -/
structure World where
  DB : Type
  driver : Driver DB
  userStore : UserDataCache DB
  NewService : UserData → Except String Unit
  EventsList : Int → Except String (List Event)
  LoadLocation : String → Except String Location
  nowToday : Nat → Int
  nowUntil : Nat → Int
  parseRFC3339 : String → Option (Int × Option Int)
  parseDate : String → Option (Int × Int × Int)
  wrapper : Int → String → String
  sprint : String → String → String
  rangeOrder : Nat → List (Regexp × String) → List (Regexp × String)

/-- The keys of the package-level `colorMap`. -/
def colorNames : List String :=
  ["black", "red", "green", "yellow", "blue", "magenta", "cyan", "white"]

/-- The package-level `colorMap`: lookup of a colour name. -/
def colorMap (w : World) (v : String) : Option (String → String) :=
  if v ∈ colorNames then some (w.sprint v) else none

/-- The call `colorMap[name](text)` for a name written in the source. -/
def callColor (w : World) (name text : String) : String :=
  match colorMap w name with
  | some f => f text
  | none => text

/-- The `for r, v := range c.colorMap` loop of `ColorTitle` over the entries
in visiting order: `some` of the returned string, or `none` when the loop runs
to its end. -/
def rangeColorMap (w : World) (s : String) : List (Regexp × String) → Option String
  | [] => none
  | (r, v) :: rest =>
    match colorMap w v with
    | none => rangeColorMap w s rest
    | some f => if r.MatchString s then some (f s) else rangeColorMap w s rest

/-- `CalendarRequest.ColorTitle`; `order` is the order in which the entries of
`c.colorMap` are visited. -/
def ColorTitle (w : World) (c : CalendarRequest) (order : List (Regexp × String))
    (s resp : String) : String :=
  if c.NoColor then s
  else
    match rangeColorMap w s order with
    | some out => out
    | none =>
      if resp = "accepted" then callColor w "green" s
      else if resp = "declined" then callColor w "red" s
      else s

/-- `CalendarRequest.Color`. -/
def Color (w : World) (c : CalendarRequest) (name text : String) : String :=
  if c.NoColor then text else callColor w name text

/-- `shortHandUntil`, with `Hours()` and `Minutes()` as exact values: the
embedding of the source function on the whole numbers of minutes that
`Generate` passes to it. -/
def shortHandUntil (d : Int) : String :=
  if Duration.Hours d ≥ 1 then toString (toInt (Duration.Hours d)) ++ "h"
  else toString (toInt (Duration.Minutes d)) ++ "m"

/-- `sameDate`. -/
def sameDate (a b : Time) : Bool :=
  let (y1, m1, d1) := a.Date
  let (y2, m2, d2) := b.Date
  if d1 ≠ d2 then false
  else if m1 ≠ m2 then false
  else if y1 ≠ y2 then false
  else true

/-- The relative-time label `until` of `Generate` for the parsed start `t`,
with `today` and the clock reading `now` of `time.Until`. -/
def untilLabel (t today : Time) (now : Int) : String :=
  let timeU := Duration.Round (Until t now) Minute
  let days := toInt (Duration.Hours timeU / 24)
  if timeU < 0 then "Now"
  else if sameDate t today then shortHandUntil (Duration.Round timeU (Minute * 1))
  else if days > 0 then toString days ++ "d"
  else shortHandUntil timeU

/-- The call `time.ParseInLocation(inFmt, date, l)` of `Generate`: `none` when
it returns an error. -/
def parseStart (w : World) (l : Location) (item : Event) : Option Time :=
  if item.Start.DateTime = "" then
    match w.parseDate item.Start.Date with
    | some (y, m, d) => some (Date y m d l)
    | none => none
  else
    match w.parseRFC3339 item.Start.DateTime with
    | some (ns, zone) => some (locateStamp ns zone l)
    | none => none

/-- The value of `date` when the record is printed: the formatted start, or
the raw string when it does not parse. -/
def displayDate (w : World) (l : Location) (item : Event) : String :=
  match parseStart w l item with
  | some t => t.Format (if item.Start.DateTime = "" then OutFmt.allDay else OutFmt.timed)
  | none => if item.Start.DateTime = "" then item.Start.Date else item.Start.DateTime

/-- The value of `until` when the record is printed; after a failed parse `t`
is the zero `Time`. -/
def displayUntil (w : World) (l : Location) (i : Nat) (item : Event) : String :=
  untilLabel ((parseStart w l item).getD zeroTime) { ns := w.nowToday i, loc := l } (w.nowUntil i)

/-- The response status looked up among the attendees: the last attendee whose
email equals the user id, `"needsAction"` without one. -/
def attendeeResp (user : UserData) (attendees : List EventAttendee) : String :=
  attendees.foldl (fun resp v => if v.Email = user.ID then v.ResponseStatus else resp)
    "needsAction"

/-- The text appended to `ret` for one event (`fmt.Sprintf("%s\n%s %s\n\n", ...)`). -/
def eventRecord (w : World) (c : CalendarRequest) (user : UserData) (l : Location)
    (i : Nat) (item : Event) : String :=
  ColorTitle w c (w.rangeOrder i c.colorMap) (w.wrapper c.MaxWidth item.Summary)
      (attendeeResp user item.Attendees)
    ++ "\n" ++ Color w c "cyan" (displayDate w l item)
    ++ " " ++ Color w c "blue" (displayUntil w l i item) ++ "\n\n"

/-- The outcome of one iteration of the loop over `events.Items`. -/
inductive Step where
  | skip
  | emit (text : String)
  | fail (err : String)

/-- The inner loop over `c.exclude`: whether some pattern matches the title. -/
def excluded (c : CalendarRequest) (item : Event) : Bool :=
  c.exclude.any (fun v => v.MatchString item.Summary)

/-- One iteration of the loop of `Generate` over `events.Items`. -/
def renderItem (w : World) (c : CalendarRequest) (user : UserData) (i : Nat)
    (item : Event) : Step :=
  if excluded c item then .skip
  else
    match w.LoadLocation c.TimeZone with
    | .error e => .fail ("Invalid TZ (" ++ c.TimeZone ++ "): " ++ e)
    | .ok l =>
      if item.Start.DateTime = "" ∧ c.AllDay = false then .skip
      else .emit (eventRecord w c user l i item)

/-- The loop of `Generate` over `events.Items`, from iteration `i` with the
text `ret` accumulated so far. -/
def renderLoop (w : World) (c : CalendarRequest) (user : UserData) :
    Nat → List Event → String → Except String String
  | _, [], ret => .ok ret
  | i, item :: rest, ret =>
    match renderItem w c user i item with
    | .skip => renderLoop w c user (i + 1) rest ret
    | .emit text => renderLoop w c user (i + 1) rest (ret ++ text)
    | .fail err => .error err

/-- `CalendarRequest.Generate`. -/
def Generate (w : World) (c : CalendarRequest) : Except String String :=
  match UserDataCache.Get w.driver w.userStore c.UUID with
  | .error _ => .error "Error getting credentials"
  | .ok user =>
    match w.NewService user with
    | .error e => .error ("calendar.NewService failed with \x27" ++ e ++ "\x27\n")
    | .ok _ =>
      match w.EventsList c.MaxResults with
      | .error e =>
        .error ("Unable to retrieve next ten of the user\x27s events: " ++ e ++ "\n")
      | .ok items =>
        if items.length = 0 then .ok "No upcoming events found."
        else renderLoop w c user 0 items ""

/-! ## The specification's wording of the relative-time label -/

/-- The short-hand duration as the specification words it: the whole number of
hours followed by `h` when the duration is at least one hour, the whole number
of minutes followed by `m` when not. -/
def specShortHand (r : Int) : String :=
  if r ≥ Hour then toString (r / Hour) ++ "h" else toString (r / Minute) ++ "m"

/-- A difference of instants limited to the range of a `Duration`
(`-2^63` to `2^63 - 1` nanoseconds, about 292 years either way). -/
def clampDuration (d : Int) : Int :=
  if d < minDuration then minDuration else if d > maxDuration then maxDuration else d

/-- A number of nanoseconds rounded to the nearest whole minute, a half minute
going away from zero. -/
def roundNearestMinute (d : Int) : Int :=
  if d < 0 then -((-d + 30 * Second) / Minute * Minute)
  else (d + 30 * Second) / Minute * Minute

/-- The relative-time label as the specification words it, for the rounded
remaining time `r` and the outcome `same` of the same-date test. -/
def specLabel (r : Int) (same : Bool) : String :=
  if r < 0 then "Now"
  else if same then specShortHand r
  else if r / (24 * Hour) > 0 then toString (r / (24 * Hour)) ++ "d"
  else specShortHand r

/-- The colour resolution as the specification words it, over a rule list in
a given order: the colour of the first rule that matches the title and has a
recognised colour name, and the status colours without one. -/
def specColorTitle (w : World) (rules : List (Regexp × String)) (s resp : String) : String :=
  match rules.find? (fun rv => decide (rv.2 ∈ colorNames) && rv.1.MatchString s) with
  | some rv => w.sprint rv.2 s
  | none =>
    if resp = "accepted" then w.sprint "green" s
    else if resp = "declined" then w.sprint "red" s
    else s

/-- Whether an event survives the two filters of the loop. -/
def survives (c : CalendarRequest) (item : Event) : Bool :=
  !excluded c item && (decide (item.Start.DateTime ≠ "") || c.AllDay)

/-- The events of a list paired with their position, from position `i`. -/
def indexFrom : Nat → List Event → List (Nat × Event)
  | _, [] => []
  | i, item :: rest => (i, item) :: indexFrom (i + 1) rest

/-- Concatenation of texts in list order. -/
def concatRecords : List String → String
  | [] => ""
  | x :: xs => x ++ concatRecords xs

/-- The records of the surviving events of a list, in list order, each with
the clock readings and the visiting order of its own iteration. -/
def survivorRecords (w : World) (c : CalendarRequest) (user : UserData) (l : Location)
    (i : Nat) (items : List Event) : List String :=
  ((indexFrom i items).filter (fun p => survives c p.2)).map
    (fun p => eventRecord w c user l p.1 p.2)

/-- A text is empty or ends with a line feed. -/
def endsNL (s : String) : Prop := s = "" ∨ s.data.getLast? = some '\n'

/-! ## Concrete collaborators for the examples -/

/-- Whether the characters `p` start the text. -/
def startsWithChars : List Char → List Char → Bool
  | [], _ => true
  | _ :: _, [] => false
  | p :: ps, ch :: cs => decide (p = ch) && startsWithChars ps cs

/-- Whether the characters `p` occur somewhere in the text. -/
def occursIn (p : List Char) : List Char → Bool
  | [] => startsWithChars p []
  | ch :: cs => startsWithChars p (ch :: cs) || occursIn p cs

/-- A matcher for patterns made of an optional leading `^` and literal
characters, on which it agrees with `regexp.MatchString`. -/
def litRegexp (p : String) : Regexp :=
  { expr := p,
    MatchString := fun s =>
      match p.data with
      | '^' :: rest => startsWithChars rest s.data
      | lit => occursIn lit s.data }

/-- Compilation of literal patterns. -/
def litCompile (p : String) : Except String Regexp := .ok (litRegexp p)

/-- The SGR code of a colour name. -/
def ansiCode (name : String) : String :=
  if name = "black" then "30" else if name = "red" then "31"
  else if name = "green" then "32" else if name = "yellow" then "33"
  else if name = "blue" then "34" else if name = "magenta" then "35"
  else if name = "cyan" then "36" else "37"

/-- Colour rendering with escape sequences, as `SprintFunc` does when colour
output is on. -/
def ansiSprint (name s : String) : String :=
  "\x1b[" ++ ansiCode name ++ "m" ++ s ++ "\x1b[0m"

/-- A table in memory standing for the `users` table. -/
def memDriver : Driver (List (String × String)) :=
  { execInsert := fun db k v => .ok ((k, v) :: db.filter (fun e => decide (e.1 ≠ k))),
    queryRow := fun db k =>
      match db.find? (fun e => decide (e.1 = k)) with
      | some e => .ok (some e.2)
      | none => .error "sql: no rows in result set",
    jsonEncode := fun u => u.ID ++ " " ++ u.Token.AccessToken,
    jsonDecode := fun _ => none }

/-- A credential record. -/
def demoUser : UserData :=
  { ID := "u1", Token := { AccessToken := "at", TokenType := "Bearer", RefreshToken := "rt", Expiry := 0 } }

/-- The zones of America/New_York in force from 2023-11-05 to 2025-03-09:
EST, EDT from 2024-03-10 07:00 UTC, EST from 2024-11-03 06:00 UTC. -/
def newYork2024 : Location :=
  { lookup := fun u =>
      if u < 1710054000 then { offset := -18000, start := 1699164000, stop := 1710054000 }
      else if u < 1730613600 then { offset := -14400, start := 1710054000, stop := 1730613600 }
      else { offset := -18000, start := 1730613600, stop := 1741503600 } }

/-- A time zone database with three names. -/
def demoLoadLocation (name : String) : Except String Location :=
  if name = "America/New_York" then .ok newYork2024
  else if name = "Asia/Tokyo" then .ok (FixedZone 32400)
  else if name = "UTC" then .ok UTC
  else .error ("unknown time zone " ++ name)

/-- The RFC 3339 reading of four timestamps. -/
def demoParseRFC3339 (s : String) : Option (Int × Option Int) :=
  if s = "2024-11-04T04:50:00Z" then some (1730695800 * 1000000000, none)
  else if s = "2024-11-03T23:50:00-05:00" then some (1730695800 * 1000000000, some (-18000))
  else if s = "2024-01-01T23:30:00-05:00" then some (1704169800 * 1000000000, some (-18000))
  else if s = "9999-12-31T23:59:59Z" then some (253402300799 * 1000000000, none)
  else none

/-- The reading of one date. -/
def demoParseDate (s : String) : Option (Int × Int × Int) :=
  if s = "2024-11-03" then some (2024, 11, 3) else none

/-- A world whose calendar returns `items` and whose clock reads `now`
(nanoseconds since the Unix epoch) throughout, with the user `u1` cached. -/
def demoWorld (items : List Event) (now : Int) : World :=
  { DB := List (String × String),
    driver := memDriver,
    userStore := { cache := fun k => if k = "u1" then some demoUser else none, db := [] },
    NewService := fun _ => .ok (),
    EventsList := fun _ => .ok items,
    LoadLocation := demoLoadLocation,
    nowToday := fun _ => now,
    nowUntil := fun _ => now,
    parseRFC3339 := demoParseRFC3339,
    parseDate := demoParseDate,
    wrapper := fun _ s => s,
    sprint := ansiSprint,
    rangeOrder := fun _ m => m }

/-- A prepared request of user `u1` without rules, colouring off. -/
def plainRequest (tz : String) : CalendarRequest :=
  { NewCalendarRequest "u1" with TimeZone := tz, MaxWidth := 50, NoColor := true }

/-- A timed event without attendees. -/
def timedEvent (title start : String) : Event :=
  { Summary := title, Start := { DateTime := start, Date := "" }, Attendees := [] }

/-- An all-day event without attendees. -/
def allDayEvent (title date : String) : Event :=
  { Summary := title, Start := { DateTime := "", Date := date }, Attendees := [] }

/-- The request of user `u1` with exclude pattern `^Lunch` and colouring off,
as received. -/
def lunchQuery : CalendarRequest :=
  { NewCalendarRequest "u1" with Exclude := "^Lunch", NoColor := true }

/-- The request `lunchQuery` after `Prepare`. -/
def lunchRequest : CalendarRequest :=
  { lunchQuery with MaxWidth := 50, exclude := [litRegexp "^Lunch"] }

/-- The request of user `u1` with two highlight rules for the same pattern,
as received. -/
def highlightQuery : CalendarRequest :=
  { NewCalendarRequest "u1" with Highlights := "Stand,red,Stand,blue" }

/-- The request `highlightQuery` after `Prepare`. -/
def highlightRequest : CalendarRequest :=
  { highlightQuery with
    MaxWidth := 50, colorMap := [(litRegexp "Stand", "red"), (litRegexp "Stand", "blue")] }

/-- Three events: one excluded by `^Lunch`, one all-day, one timed. -/
def demoItems : List Event :=
  [timedEvent "Lunch with Bob" "2024-11-03T23:50:00-05:00",
   allDayEvent "Conference" "2024-11-03",
   timedEvent "Standup" "2024-11-03T23:50:00-05:00"]

/-- The instant 2024-11-03 00:10 in New York (04:10 UTC), in nanoseconds. -/
def nov3 : Int := 1730607000 * 1000000000

/-- The instant 2024-01-01 09:00 in Tokyo (00:00 UTC), in nanoseconds. -/
def jan1 : Int := 1704067200 * 1000000000

/-- The instant 2024-11-04 04:50 UTC, in nanoseconds. -/
def nov4 : Int := 1730695800 * 1000000000

/-- A world like `demoWorld demoItems nov3` whose calendar answers a call with
`MaxResults` 50 and refuses every other cap. -/
def capWorld : World :=
  { demoWorld demoItems nov3 with
    EventsList := fun n => if n = 50 then .ok demoItems else .error ("cap " ++ toString n) }

deriving instance DecidableEq for Except

/-! ## Durations: rounding and the whole-hour and whole-minute counts -/

/-- Go `%` on a negative dividend, through the remainder of its negation. -/
theorem tmod_of_neg (d m : Int) (hd : d < 0) (hm : 0 < m) :
    Int.tmod d m = -((-d) % m) := by
  have h := Int.tmod_eq_emod (a := -d) (b := m) (by omega) (by omega)
  rw [Int.tmod_def, Int.neg_tdiv] at h
  rw [Int.tmod_def]
  linarith

/-- No wrap-around within the range of `int64`. -/
theorem wrap64_id (x : Int) (hlo : -9223372036854775808 ≤ x) (hhi : x ≤ 9223372036854775807) :
    wrap64 x = x := by
  unfold wrap64; omega

/-- `lessThanHalf` on a remainder compares twice the remainder with the modulus. -/
theorem lessThanHalf_iff (x y : Int) (hx : 0 ≤ x) (hxy : x < y)
    (hy : y ≤ 9223372036854775807) : lessThanHalf x y = true ↔ x + x < y := by
  unfold lessThanHalf toUint64
  rw [decide_eq_true_eq]
  omega

/-- Rounding an `int64` duration to the minute gives a whole number of minutes at
most thirty seconds away; in particular it never saturates. -/
theorem Round_minute_facts (d : Int) (hlo : -9223372036854775808 ≤ d)
    (hhi : d ≤ 9223372036854775807) :
    Duration.Round d Minute % 60000000000 = 0 ∧
    d - 30000000000 ≤ Duration.Round d Minute ∧ Duration.Round d Minute ≤ d + 30000000000 := by
  unfold Duration.Round Minute
  simp only [show ¬ ((60000000000 : Int) ≤ 0) by decide, if_false]
  by_cases hd : d < 0
  · have h1 := tmod_of_neg d 60000000000 hd (by decide)
    have hr0 : 0 ≤ (-d) % 60000000000 := Int.emod_nonneg _ (by decide)
    have hr1 : (-d) % 60000000000 < 60000000000 := Int.emod_lt_of_pos _ (by decide)
    have hl := lessThanHalf_iff ((-d) % 60000000000) 60000000000 hr0 hr1 (by decide)
    simp only [hd, if_true, h1, neg_neg]
    by_cases hh : lessThanHalf ((-d) % 60000000000) 60000000000 = true
    · have h2 := hl.mp hh
      rw [if_pos hh, wrap64_id _ (by omega) (by omega)]
      omega
    · have h2 : ¬ ((-d) % 60000000000 + (-d) % 60000000000 < 60000000000) := fun h => hh (hl.mpr h)
      rw [if_neg hh, wrap64_id _ (by omega) (by omega)]
      rw [if_pos (by omega)]
      omega
  · have h1 : Int.tmod d 60000000000 = d % 60000000000 :=
      Int.tmod_eq_emod (by omega) (by decide)
    have hr0 : 0 ≤ d % 60000000000 := Int.emod_nonneg _ (by decide)
    have hr1 : d % 60000000000 < 60000000000 := Int.emod_lt_of_pos _ (by decide)
    have hl := lessThanHalf_iff (d % 60000000000) 60000000000 hr0 hr1 (by decide)
    simp only [hd, if_false, h1]
    by_cases hh : lessThanHalf (d % 60000000000) 60000000000 = true
    · have h2 := hl.mp hh
      rw [if_pos hh, wrap64_id _ (by omega) (by omega)]
      omega
    · have h2 : ¬ (d % 60000000000 + d % 60000000000 < 60000000000) := fun h => hh (hl.mpr h)
      rw [if_neg hh, wrap64_id _ (by omega) (by omega)]
      rw [if_pos (by omega)]
      omega

/-- The value of `Hours()` is the duration divided by an hour. -/
theorem Hours_eq (d : Int) : Duration.Hours d = (d : ℚ) / 3600000000000 := by
  unfold Duration.Hours Hour
  have h := Int.tdiv_add_tmod d 3600000000000
  have : (d : ℚ) = (3600000000000 : ℚ) * (Int.tdiv d 3600000000000 : ℚ) + (Int.tmod d 3600000000000 : ℚ) := by
    exact_mod_cast h.symm
  rw [this]; field_simp; ring

/-- The value of `Minutes()` is the duration divided by a minute. -/
theorem Minutes_eq (d : Int) : Duration.Minutes d = (d : ℚ) / 60000000000 := by
  unfold Duration.Minutes Minute
  have h := Int.tdiv_add_tmod d 60000000000
  have : (d : ℚ) = (60000000000 : ℚ) * (Int.tdiv d 60000000000 : ℚ) + (Int.tmod d 60000000000 : ℚ) := by
    exact_mod_cast h.symm
  rw [this]; field_simp; ring

/-- Truncation of a non-negative fraction is integer division. -/
theorem toInt_div (a : Int) (b : Nat) (ha : 0 ≤ a) : toInt ((a : ℚ) / (b : ℚ)) = a / b := by
  unfold toInt
  have h0 : 0 ≤ (a : ℚ) / (b : ℚ) := by positivity
  rw [Int.tdiv_eq_ediv (Rat.num_nonneg.mpr h0) (by positivity)]
  have := Rat.floor_intCast_div_natCast a b
  rw [← this]
  exact (Rat.floor_def' _).symm

/-- The whole hours of a non-negative duration. -/
theorem toInt_Hours (d : Int) (hd : 0 ≤ d) : toInt (Duration.Hours d) = d / 3600000000000 := by
  rw [Hours_eq]
  exact_mod_cast toInt_div d 3600000000000 hd

/-- The whole minutes of a non-negative duration. -/
theorem toInt_Minutes (d : Int) (hd : 0 ≤ d) : toInt (Duration.Minutes d) = d / 60000000000 := by
  rw [Minutes_eq]
  exact_mod_cast toInt_div d 60000000000 hd

/-- The day count `int(d.Hours() / 24)` of a non-negative duration. -/
theorem toInt_Hours_div (d : Int) (hd : 0 ≤ d) :
    toInt (Duration.Hours d / 24) = d / 86400000000000 := by
  rw [Hours_eq]
  have : (d : ℚ) / 3600000000000 / 24 = (d : ℚ) / ((86400000000000 : ℕ) : ℚ) := by
    rw [div_div]; norm_num
  rw [this]
  exact_mod_cast toInt_div d 86400000000000 hd

/-- The test `d.Hours() >= 1.0`. -/
theorem Hours_ge_one (d : Int) : Duration.Hours d ≥ 1 ↔ d ≥ 3600000000000 := by
  rw [Hours_eq, ge_iff_le, le_div_iff₀ (by norm_num)]
  constructor
  · intro h; exact_mod_cast h
  · intro h; exact_mod_cast h

/-- The result of `time.Until` stays within the bounds of `Duration`. -/
theorem Until_range (t : Time) (u : Int) :
    -9223372036854775808 ≤ Until t u ∧ Until t u ≤ 9223372036854775807 := by
  unfold Until Time.Sub minDuration maxDuration
  simp only
  split_ifs <;> omega

/-- Rounding a whole number of minutes to the minute changes nothing. -/
theorem Round_minute_idem (r : Int) (hlo : -9223372036854775808 ≤ r)
    (hhi : r ≤ 9223372036854775807) (hr : r % 60000000000 = 0) :
    Duration.Round r Minute = r := by
  have h := Round_minute_facts r hlo hhi
  omega

/-- On non-negative whole numbers of minutes, the values `Generate` passes,
`shortHandUntil` is the short-hand duration of the specification. -/
theorem shortHandUntil_eq_spec (r : Int) (hr : 0 ≤ r) (_hm : r % 60000000000 = 0) :
    shortHandUntil r = specShortHand r := by
  unfold shortHandUntil specShortHand Hour Minute
  by_cases h : r ≥ 3600000000000
  · rw [if_pos ((Hours_ge_one r).mpr h), if_pos h, toInt_Hours r hr]
  · rw [if_neg (fun hh => h ((Hours_ge_one r).mp hh)), if_neg h, toInt_Minutes r hr]

/-- The label computed by `Generate` is the label of the specification at the
rounded remaining time, for every input. -/
theorem untilLabel_eq_specLabel (t today : Time) (now : Int) :
    untilLabel t today now
      = specLabel (Duration.Round (Until t now) Minute) (sameDate t today) := by
  have hs := Until_range t now
  have hf := Round_minute_facts (Until t now) hs.1 hs.2
  have hlo : -9223372036854775808 ≤ Duration.Round (Until t now) Minute := by omega
  have hhi : Duration.Round (Until t now) Minute ≤ 9223372036854775807 := by omega
  unfold untilLabel specLabel
  simp only
  generalize Duration.Round (Until t now) Minute = r at hf hlo hhi ⊢
  by_cases hneg : r < 0
  · simp only [hneg, if_true]
  · have hr : 0 ≤ r := by omega
    simp only [hneg, if_false]
    have hm : Minute * 1 = Minute := by unfold Minute; rfl
    rw [hm, Round_minute_idem r hlo hhi hf.1, shortHandUntil_eq_spec r hr hf.1,
      toInt_Hours_div r hr]
    have h24 : 24 * Hour = 86400000000000 := by unfold Hour; rfl
    rw [h24]

/-- Go `Duration.Round` to the minute is rounding to the nearest whole minute,
a half minute going away from zero, on every `int64` duration. -/
theorem Round_minute_eq (d : Int) (hlo : -9223372036854775808 ≤ d)
    (hhi : d ≤ 9223372036854775807) : Duration.Round d Minute = roundNearestMinute d := by
  unfold Duration.Round roundNearestMinute Minute Second
  simp only [show ¬ ((60000000000 : Int) ≤ 0) by decide, if_false]
  by_cases hd : d < 0
  · have h1 := tmod_of_neg d 60000000000 hd (by decide)
    have hr0 : 0 ≤ (-d) % 60000000000 := Int.emod_nonneg _ (by decide)
    have hr1 : (-d) % 60000000000 < 60000000000 := Int.emod_lt_of_pos _ (by decide)
    have hl := lessThanHalf_iff ((-d) % 60000000000) 60000000000 hr0 hr1 (by decide)
    simp only [hd, if_true, h1, neg_neg]
    by_cases hh : lessThanHalf ((-d) % 60000000000) 60000000000 = true
    · have h2 := hl.mp hh
      rw [if_pos hh, wrap64_id _ (by omega) (by omega)]
      omega
    · have h2 : ¬ ((-d) % 60000000000 + (-d) % 60000000000 < 60000000000) :=
        fun h => hh (hl.mpr h)
      rw [if_neg hh, wrap64_id _ (by omega) (by omega)]
      rw [if_pos (by omega)]
      omega
  · have h1 : Int.tmod d 60000000000 = d % 60000000000 :=
      Int.tmod_eq_emod (by omega) (by decide)
    have hr0 : 0 ≤ d % 60000000000 := Int.emod_nonneg _ (by decide)
    have hr1 : d % 60000000000 < 60000000000 := Int.emod_lt_of_pos _ (by decide)
    have hl := lessThanHalf_iff (d % 60000000000) 60000000000 hr0 hr1 (by decide)
    simp only [hd, if_false, h1]
    by_cases hh : lessThanHalf (d % 60000000000) 60000000000 = true
    · have h2 := hl.mp hh
      rw [if_pos hh, wrap64_id _ (by omega) (by omega)]
      omega
    · have h2 : ¬ (d % 60000000000 + d % 60000000000 < 60000000000) := fun h => hh (hl.mpr h)
      rw [if_neg hh, wrap64_id _ (by omega) (by omega)]
      rw [if_pos (by omega)]
      omega

/-- The nearest whole minute is a whole number of minutes at most thirty
seconds away. -/
theorem roundNearestMinute_facts (d : Int) :
    roundNearestMinute d % Minute = 0 ∧
    d - 30 * Second ≤ roundNearestMinute d ∧ roundNearestMinute d ≤ d + 30 * Second := by
  unfold roundNearestMinute Minute Second
  split_ifs <;> omega

/-- The result of `time.Until` is the difference of the instants limited to the
range of a `Duration`. -/
theorem Until_eq_clamp (t : Time) (now : Int) : Until t now = clampDuration (t.ns - now) := rfl

/-- The label printed for an event, in the words of the specification; the
start is the zero `Time` when it does not parse. -/
theorem displayUntil_eq_specLabel (w : World) (l : Location) (i : Nat) (item : Event) :
    displayUntil w l i item
      = specLabel
          (roundNearestMinute
            (clampDuration (((parseStart w l item).getD zeroTime).ns - w.nowUntil i)))
          (sameDate ((parseStart w l item).getD zeroTime) { ns := w.nowToday i, loc := l }) := by
  unfold displayUntil
  rw [untilLabel_eq_specLabel]
  have hs := Until_range ((parseStart w l item).getD zeroTime) (w.nowUntil i)
  rw [Round_minute_eq _ hs.1 hs.2, Until_eq_clamp]

/-- A timed start always carries the offset written in its own string,
whatever the request's location. -/
theorem locateStamp_wallSec (ns off : Int) (l : Location) :
    (locateStamp ns (some off) l).wallSec = ns / 1000000000 + off := by
  unfold locateStamp Time.wallSec Time.unixSec
  simp only
  split_ifs with h
  · simp only; rw [h]
  · rfl

/-- The layouts of `Generate` read a time only through its wall clock. -/
theorem Format_wallSec (a b : Time) (f : OutFmt) (h : a.wallSec = b.wallSec) :
    a.Format f = b.Format f := by
  unfold Time.Format
  rw [h]

/-- The date printed for a timed event whose start carries a numeric offset is
the start on the wall clock of that offset, whatever the request's location. -/
theorem displayDate_timed (w : World) (l : Location) (item : Event) (ns off : Int)
    (hne : item.Start.DateTime ≠ "")
    (hp : w.parseRFC3339 item.Start.DateTime = some (ns, some off)) :
    displayDate w l item = ({ ns := ns, loc := FixedZone off } : Time).Format OutFmt.timed := by
  unfold displayDate parseStart
  simp only [hne, if_false, hp]
  apply Format_wallSec
  rw [locateStamp_wallSec]
  rfl

/-! ## The loop over the events -/

/-- An excluded event is skipped before the time zone is looked at. -/
theorem renderItem_excluded (w : World) (c : CalendarRequest) (user : UserData) (i : Nat)
    (item : Event) (h : excluded c item = true) : renderItem w c user i item = .skip := by
  unfold renderItem
  rw [if_pos h]

/-- With a resolvable time zone an iteration emits the record of a surviving
event and skips any other. -/
theorem renderItem_ok (w : World) (c : CalendarRequest) (user : UserData) (i : Nat)
    (item : Event) (l : Location) (hl : w.LoadLocation c.TimeZone = .ok l) :
    renderItem w c user i item
      = if survives c item then .emit (eventRecord w c user l i item) else .skip := by
  unfold renderItem survives
  by_cases hx : excluded c item = true
  · simp [hx]
  · simp only [hx, hl]
    by_cases hd : item.Start.DateTime = "" <;> cases hA : c.AllDay <;> simp [hd, hA]

/-- With an unresolvable time zone an iteration on an event that is not excluded
fails. -/
theorem renderItem_tz_error (w : World) (c : CalendarRequest) (user : UserData) (i : Nat)
    (item : Event) (e : String) (hl : w.LoadLocation c.TimeZone = .error e)
    (hx : excluded c item = false) :
    renderItem w c user i item = .fail ("Invalid TZ (" ++ c.TimeZone ++ "): " ++ e) := by
  unfold renderItem
  simp [hx, hl]

/-- With a resolvable time zone the loop appends the records of the survivors. -/
theorem renderLoop_ok (w : World) (c : CalendarRequest) (user : UserData) (l : Location)
    (hl : w.LoadLocation c.TimeZone = .ok l) (items : List Event) :
    ∀ (i : Nat) (ret : String),
      renderLoop w c user i items ret
        = .ok (ret ++ concatRecords (survivorRecords w c user l i items)) := by
  induction items with
  | nil =>
    intro i ret
    simp [renderLoop, survivorRecords, indexFrom, concatRecords]
  | cons item rest ih =>
    intro i ret
    unfold renderLoop
    rw [renderItem_ok w c user i item l hl]
    by_cases hs : survives c item = true
    · simp only [hs, if_true]
      rw [ih (i + 1) (ret ++ eventRecord w c user l i item)]
      simp [survivorRecords, indexFrom, List.filter, hs, concatRecords, String.append_assoc]
    · simp only [hs]
      rw [ih (i + 1) ret]
      simp [survivorRecords, indexFrom, List.filter, hs]

/-- A loop over excluded events only leaves the text as it is. -/
theorem renderLoop_all_excluded (w : World) (c : CalendarRequest) (user : UserData)
    (items : List Event) (hx : ∀ item ∈ items, excluded c item = true) :
    ∀ (i : Nat) (ret : String), renderLoop w c user i items ret = .ok ret := by
  induction items with
  | nil => intro i ret; rfl
  | cons item rest ih =>
    intro i ret
    unfold renderLoop
    rw [renderItem_excluded w c user i item (hx item (List.mem_cons_self _ _))]
    exact ih (fun x hxm => hx x (List.mem_cons_of_mem _ hxm)) (i + 1) ret

/-- With an unresolvable time zone the loop fails at the first event that is not
excluded. -/
theorem renderLoop_tz_error (w : World) (c : CalendarRequest) (user : UserData) (e : String)
    (hl : w.LoadLocation c.TimeZone = .error e) (items : List Event)
    (hx : ∃ item ∈ items, excluded c item = false) :
    ∀ (i : Nat) (ret : String),
      renderLoop w c user i items ret
        = .error ("Invalid TZ (" ++ c.TimeZone ++ "): " ++ e) := by
  induction items with
  | nil => obtain ⟨x, hm, _⟩ := hx; cases hm
  | cons item rest ih =>
    intro i ret
    unfold renderLoop
    by_cases h : excluded c item = true
    · rw [renderItem_excluded w c user i item h]
      apply ih
      obtain ⟨x, hm, hxf⟩ := hx
      rcases List.mem_cons.mp hm with rfl | hm
      · rw [h] at hxf; cases hxf
      · exact ⟨x, hm, hxf⟩
    · rw [renderItem_tz_error w c user i item e hl (by simpa using h)]

/-- Every record ends with a line feed. -/
theorem eventRecord_last (w : World) (c : CalendarRequest) (user : UserData) (l : Location)
    (i : Nat) (item : Event) :
    (eventRecord w c user l i item).data.getLast? = some '\n' := by
  unfold eventRecord
  rw [String.data_append]
  show (_ ++ '\n' :: ['\n']).getLast? = some '\n'
  rw [List.getLast?_append_cons]
  rfl

/-- Appending a text that ends with a line feed. -/
theorem append_record_endsNL (ret text : String) (h : text.data.getLast? = some '\n') :
    endsNL (ret ++ text) := by
  right
  rw [String.data_append]
  cases ht : text.data with
  | nil => rw [ht] at h; cases h
  | cons a as =>
    rw [ht] at h
    rw [List.getLast?_append_cons]
    exact h

/-- The loop keeps the text empty or ending with a line feed. -/
theorem renderLoop_endsNL (w : World) (c : CalendarRequest) (user : UserData)
    (items : List Event) :
    ∀ (i : Nat) (ret out : String), endsNL ret →
      renderLoop w c user i items ret = .ok out → endsNL out := by
  induction items with
  | nil =>
    intro i ret out hret h
    simp only [renderLoop, Except.ok.injEq] at h
    rw [← h]; exact hret
  | cons item rest ih =>
    intro i ret out hret h
    unfold renderLoop at h
    cases hstep : renderItem w c user i item with
    | skip => rw [hstep] at h; exact ih (i + 1) ret out hret h
    | fail err => rw [hstep] at h; cases h
    | emit text =>
      rw [hstep] at h
      refine ih (i + 1) (ret ++ text) out (append_record_endsNL ret text ?_) h
      unfold renderItem at hstep
      split at hstep
      · cases hstep
      · split at hstep
        · cases hstep
        · split at hstep
          · cases hstep
          · simp only [Step.emit.injEq] at hstep
            rw [← hstep]
            exact eventRecord_last _ _ _ _ _ _

/-- The message for an empty list is not empty and does not end with a line feed. -/
theorem noEvents_not_endsNL : ¬ endsNL "No upcoming events found." := by
  unfold endsNL
  decide

/-- The second components of `indexFrom` are the events themselves. -/
theorem indexFrom_snd (items : List Event) :
    ∀ i : Nat, (indexFrom i items).map Prod.snd = items := by
  induction items with
  | nil => intro i; rfl
  | cons item rest ih => intro i; simp [indexFrom, ih]

/-- Survival is: no exclude pattern matches, and timed or all-day included. -/
theorem survives_iff (c : CalendarRequest) (item : Event) :
    survives c item = true ↔
      ((∀ v ∈ c.exclude, v.MatchString item.Summary = false) ∧
        (item.Start.DateTime ≠ "" ∨ c.AllDay = true)) := by
  unfold survives excluded
  simp [List.any_eq_true]

/-- The loop of `ColorTitle` uses the world only through `sprint`. -/
theorem rangeColorMap_congr (w w1 : World) (hs : w1.sprint = w.sprint) (s : String)
    (order : List (Regexp × String)) : rangeColorMap w1 s order = rangeColorMap w s order := by
  induction order with
  | nil => rfl
  | cons rv rest ih =>
    obtain ⟨r, v⟩ := rv
    unfold rangeColorMap colorMap
    rw [ih, hs]

/-- The loop over the events does not consult the event source. -/
theorem renderLoop_EventsList (w : World) (f : Int → Except String (List Event))
    (c : CalendarRequest) (user : UserData) (items : List Event) :
    ∀ (i : Nat) (ret : String),
      renderLoop { w with EventsList := f } c user i items ret
        = renderLoop w c user i items ret := by
  induction items with
  | nil => intro i ret; rfl
  | cons item rest ih =>
    intro i ret
    unfold renderLoop
    have hitem : renderItem { w with EventsList := f } c user i item
        = renderItem w c user i item := by
      unfold renderItem eventRecord ColorTitle
      rw [rangeColorMap_congr w { w with EventsList := f } rfl]
      rfl
    rw [hitem]
    cases renderItem w c user i item with
    | skip => exact ih (i + 1) ret
    | emit text => exact ih (i + 1) (ret ++ text)
    | fail err => rfl

/-- For a non-empty event list and a resolvable time zone `Generate` returns
the records of the surviving events. -/
theorem Generate_records (w : World) (c : CalendarRequest) (user : UserData)
    (items : List Event) (l : Location)
    (hget : UserDataCache.Get w.driver w.userStore c.UUID = .ok user)
    (hsvc : w.NewService user = .ok ())
    (hev : w.EventsList c.MaxResults = .ok items)
    (hne : items ≠ [])
    (hl : w.LoadLocation c.TimeZone = .ok l) :
    Generate w c = .ok (concatRecords (survivorRecords w c user l 0 items)) := by
  unfold Generate
  simp only [hget, hsvc, hev]
  have hlen : ¬ items.length = 0 := fun h => hne (List.length_eq_zero.mp h)
  rw [if_neg hlen, renderLoop_ok w c user l hl items 0 ""]
  simp

/-- After a successful credential lookup and service construction `Generate`
calls the event source with `c.MaxResults` and renders what it returns. -/
theorem Generate_EventsList (w : World) (c : CalendarRequest) (user : UserData)
    (hget : UserDataCache.Get w.driver w.userStore c.UUID = .ok user)
    (hsvc : w.NewService user = .ok ()) :
    Generate w c =
      match w.EventsList c.MaxResults with
      | .error e =>
        .error ("Unable to retrieve next ten of the user\x27s events: " ++ e ++ "\n")
      | .ok items =>
        if items.length = 0 then .ok "No upcoming events found."
        else renderLoop w c user 0 items "" := by
  unfold Generate
  simp only [hget, hsvc]

/-! ## Colour resolution and request preparation -/

/-- A colour name written in the source is a key of `colorMap`. -/
theorem callColor_known (w : World) (name text : String) (h : name ∈ colorNames) :
    callColor w name text = w.sprint name text := by
  unfold callColor colorMap
  rw [if_pos h]

/-- The loop of `ColorTitle` returns the colour of the first qualifying entry
in visiting order. -/
theorem rangeColorMap_eq_find (w : World) (s : String) (order : List (Regexp × String)) :
    rangeColorMap w s order
      = (order.find? (fun rv => decide (rv.2 ∈ colorNames) && rv.1.MatchString s)).map
          (fun rv => w.sprint rv.2 s) := by
  induction order with
  | nil => rfl
  | cons rv rest ih =>
    obtain ⟨r, v⟩ := rv
    unfold rangeColorMap colorMap
    by_cases hv : v ∈ colorNames
    · by_cases hm : r.MatchString s = true
      · simp [hv, hm, List.find?]
      · simp [hv, hm, List.find?, ih]
    · simp [hv, List.find?, ih]

/-- `Prepare` changes `MaxResults` only by the cap at 50. -/
theorem Prepare_MaxResults (compile : String → Except String Regexp)
    (c c1 : CalendarRequest) (h : Prepare compile c = .ok c1) :
    c1.MaxResults = if c.MaxResults > 50 then 50 else c.MaxResults := by
  unfold Prepare at h
  by_cases hu : c.UUID = ""
  · rw [if_pos hu] at h; cases h
  · rw [if_neg hu] at h
    by_cases h50 : c.MaxResults > 50 <;> by_cases hw0 : c.MaxWidth = 0 <;>
      simp only [h50, hw0, if_true, if_false] at h <;>
      split at h <;> try cases h
    all_goals
      split at h
      · split at h
        · cases h
        · split at h
          · cases h
          · simp only [Except.ok.injEq] at h
            subst h
            simp [h50]
      · simp only [Except.ok.injEq] at h
        subst h
        simp [h50]

/-! ## Claims -/

/-- C1: for a non-empty event list and a resolvable time zone the text of
`Generate` is the concatenation, in provider order, of the records of exactly
the surviving events; an event survives exactly when no exclude pattern matches
its title and it is timed or all-day events are included. -/
theorem C1_surviving_records (w : World) (c : CalendarRequest) (user : UserData)
    (items : List Event) (l : Location)
    (hget : UserDataCache.Get w.driver w.userStore c.UUID = .ok user)
    (hsvc : w.NewService user = .ok ())
    (hev : w.EventsList c.MaxResults = .ok items)
    (hne : items ≠ [])
    (hl : w.LoadLocation c.TimeZone = .ok l) :
    Generate w c
      = .ok (concatRecords
          (((indexFrom 0 items).filter (fun p => survives c p.2)).map
            (fun p => eventRecord w c user l p.1 p.2))) ∧
    (indexFrom 0 items).map Prod.snd = items ∧
    (∀ item : Event, survives c item = true ↔
      ((∀ v ∈ c.exclude, v.MatchString item.Summary = false) ∧
        (item.Start.DateTime ≠ "" ∨ c.AllDay = true))) := by
  refine ⟨?_, indexFrom_snd items 0, survives_iff c⟩
  unfold Generate
  simp only [hget, hsvc, hev]
  have hlen : ¬ items.length = 0 := fun h => hne (List.length_eq_zero.mp h)
  rw [if_neg hlen, renderLoop_ok w c user l hl items 0 ""]
  simp [survivorRecords]

/-- C1 at three events in New York with all-day events switched off: only the
timed event that is not excluded is printed. -/
theorem C1_surviving_records_witness :
    Generate (demoWorld demoItems nov3) { lunchRequest with AllDay := false }
      = .ok "Standup\nSun, Nov 03, 23:50 24h\n\n" :=
  (C1_surviving_records (demoWorld demoItems nov3) { lunchRequest with AllDay := false }
    demoUser demoItems newYork2024 rfl rfl rfl (by decide) rfl).1.trans (by decide!)

/-- C2: when rendering succeeds the text is the message `No upcoming events
found.` exactly when the event list is empty; a non-empty list whose events are
all skipped gives the empty text, as for the single event `Lunch with Bob`
under the exclude pattern `^Lunch`. -/
theorem C2_no_events_message (w : World) (c : CalendarRequest) (user : UserData)
    (items : List Event) (out : String)
    (hget : UserDataCache.Get w.driver w.userStore c.UUID = .ok user)
    (hsvc : w.NewService user = .ok ())
    (hev : w.EventsList c.MaxResults = .ok items)
    (hout : Generate w c = .ok out) :
    (out = "No upcoming events found." ↔ items = []) ∧
    (items ≠ [] → (∀ item ∈ items, survives c item = false) → out = "") ∧
    (Prepare litCompile lunchQuery = .ok lunchRequest ∧
      Generate (demoWorld [timedEvent "Lunch with Bob" "2024-11-03T23:50:00-05:00"] nov3)
        lunchRequest = .ok "") := by
  unfold Generate at hout
  simp only [hget, hsvc, hev] at hout
  refine ⟨⟨?_, ?_⟩, ?_, ⟨rfl, by decide!⟩⟩
  · intro hmsg
    by_contra hne
    have hlen : ¬ items.length = 0 := fun h => hne (List.length_eq_zero.mp h)
    rw [if_neg hlen] at hout
    have h := renderLoop_endsNL w c user items 0 "" out (Or.inl rfl) hout
    rw [hmsg] at h
    exact noEvents_not_endsNL h
  · intro hnil
    subst hnil
    simp only [List.length_nil, if_true, Except.ok.injEq] at hout
    exact hout.symm
  · intro hne hskip
    have hlen : ¬ items.length = 0 := fun h => hne (List.length_eq_zero.mp h)
    rw [if_neg hlen] at hout
    cases hl : w.LoadLocation c.TimeZone with
    | ok l =>
      rw [renderLoop_ok w c user l hl items 0 ""] at hout
      have hnone : survivorRecords w c user l 0 items = [] := by
        unfold survivorRecords
        rw [List.map_eq_nil_iff, List.filter_eq_nil_iff]
        intro p hp
        have hm : p.2 ∈ items := by
          rw [← indexFrom_snd items 0]
          exact List.mem_map_of_mem Prod.snd hp
        simp [hskip p.2 hm]
      rw [hnone] at hout
      simp only [concatRecords, Except.ok.injEq] at hout
      rw [← hout]
      rfl
    | error e =>
      by_cases hx : ∃ item ∈ items, excluded c item = false
      · rw [renderLoop_tz_error w c user e hl items hx 0 ""] at hout
        cases hout
      · have hall : ∀ item ∈ items, excluded c item = true := by
          intro item hm
          cases h : excluded c item with
          | true => rfl
          | false => exact absurd ⟨item, hm, h⟩ hx
        rw [renderLoop_all_excluded w c user items hall 0 ""] at hout
        simp only [Except.ok.injEq] at hout
        exact hout.symm

/-- C2 at the single excluded event `Lunch with Bob`: the text is empty and is
not the message for an empty list. -/
theorem C2_no_events_message_witness :
    ("" = "No upcoming events found."
      ↔ [timedEvent "Lunch with Bob" "2024-11-03T23:50:00-05:00"] = []) ∧
    Generate (demoWorld [timedEvent "Lunch with Bob" "2024-11-03T23:50:00-05:00"] nov3)
        lunchRequest = .ok "" :=
  ⟨(C2_no_events_message
      (demoWorld [timedEvent "Lunch with Bob" "2024-11-03T23:50:00-05:00"] nov3)
      lunchRequest demoUser [timedEvent "Lunch with Bob" "2024-11-03T23:50:00-05:00"] ""
      rfl rfl rfl (by decide!)).1, by decide!⟩

/-- C3, refuted as stated: seen on 2024-11-03 an event starting at
`9999-12-31T23:59:59Z` is 2912866 days away and on another date, so the label
worded by the claim is `2912866d`; `Generate` prints `106751d`, the day count
of the largest `Duration`. -/
theorem C3_counterexample :
    demoParseRFC3339 "9999-12-31T23:59:59Z" = some (253402300799 * 1000000000, none) ∧
    sameDate (locateStamp (253402300799 * 1000000000) none UTC) { ns := nov3, loc := UTC }
      = false ∧
    specLabel (roundNearestMinute (253402300799 * 1000000000 - nov3)) false = "2912866d" ∧
    Generate (demoWorld [timedEvent "Party" "9999-12-31T23:59:59Z"] nov3) (plainRequest "UTC")
      = .ok "Party\nFri, Dec 31, 23:59 106751d\n\n" := by
  refine ⟨by decide, by decide, by decide, by decide!⟩

/-- C3, amended: let `r` be the difference start minus now, limited to the
range of a `Duration` (`-2^63` to `2^63 - 1` nanoseconds, about 292 years either
way; within it the difference is exact), rounded to the nearest minute.  The
label `Generate` prints in the record of an event is `Now` when `r < 0`, the
short-hand duration of `r` when start and today are on the same date, the day
count `floor(r / 24h)` followed by `d` when that is positive, and the
short-hand duration of `r` otherwise, the short-hand duration being the whole
hours followed by `h` from one hour on and the whole minutes followed by `m`
below; 50 hours on another date give `2d` and 45 minutes give `45m`. -/
theorem C3_until_label (w : World) (c : CalendarRequest) (user : UserData)
    (items : List Event) (l : Location)
    (hget : UserDataCache.Get w.driver w.userStore c.UUID = .ok user)
    (hsvc : w.NewService user = .ok ())
    (hev : w.EventsList c.MaxResults = .ok items)
    (hne : items ≠ [])
    (hl : w.LoadLocation c.TimeZone = .ok l) :
    Generate w c
      = .ok (concatRecords
          (((indexFrom 0 items).filter (fun p => survives c p.2)).map
            (fun p =>
              ColorTitle w c (w.rangeOrder p.1 c.colorMap) (w.wrapper c.MaxWidth p.2.Summary)
                  (attendeeResp user p.2.Attendees)
                ++ "\n" ++ Color w c "cyan" (displayDate w l p.2)
                ++ " " ++ Color w c "blue"
                  (specLabel
                    (roundNearestMinute
                      (clampDuration
                        (((parseStart w l p.2).getD zeroTime).ns - w.nowUntil p.1)))
                    (sameDate ((parseStart w l p.2).getD zeroTime)
                      { ns := w.nowToday p.1, loc := l }))
                ++ "\n\n"))) ∧
    (∀ (i : Nat) (item : Event) (t : Time), parseStart w l item = some t →
      displayUntil w l i item
        = specLabel (roundNearestMinute (clampDuration (t.ns - w.nowUntil i)))
            (sameDate t { ns := w.nowToday i, loc := l })) ∧
    (∀ d : Int, minDuration ≤ d → d ≤ maxDuration → clampDuration d = d) ∧
    (∀ d : Int, roundNearestMinute d % Minute = 0 ∧
      d - 30 * Second ≤ roundNearestMinute d ∧ roundNearestMinute d ≤ d + 30 * Second) ∧
    specLabel (50 * Hour) false = "2d" ∧
    (∀ same : Bool, specLabel (45 * Minute) same = "45m") ∧
    Generate (demoWorld [timedEvent "Standup" "2024-11-04T04:50:00Z"] (nov4 - 50 * Hour))
      (plainRequest "UTC") = .ok "Standup\nMon, Nov 04, 04:50 2d\n\n" ∧
    Generate (demoWorld [timedEvent "Standup" "2024-11-04T04:50:00Z"] (nov4 - 45 * Minute))
      (plainRequest "UTC") = .ok "Standup\nMon, Nov 04, 04:50 45m\n\n" := by
  refine ⟨?_, ?_, ?_, roundNearestMinute_facts, by decide, by decide, by decide!, by decide!⟩
  · rw [Generate_records w c user items l hget hsvc hev hne hl]
    unfold survivorRecords
    congr 2
    apply List.map_congr_left
    intro p _
    unfold eventRecord
    rw [displayUntil_eq_specLabel]
  · intro i item t hp
    rw [displayUntil_eq_specLabel, hp, Option.getD_some]
  · intro d hlo hhi
    unfold clampDuration
    rw [if_neg (by omega), if_neg (by omega)]

/-- C3 amended, at the event of 2024-11-04 04:50 UTC seen 50 hours earlier
from UTC: the record carries the label `2d`. -/
theorem C3_until_label_witness :
    Generate (demoWorld [timedEvent "Standup" "2024-11-04T04:50:00Z"] (nov4 - 50 * Hour))
      (plainRequest "UTC") = .ok "Standup\nMon, Nov 04, 04:50 2d\n\n" ∧
    displayUntil (demoWorld [timedEvent "Standup" "2024-11-04T04:50:00Z"] (nov4 - 50 * Hour))
      UTC 0 (timedEvent "Standup" "2024-11-04T04:50:00Z") = "2d" :=
  ⟨(C3_until_label
      (demoWorld [timedEvent "Standup" "2024-11-04T04:50:00Z"] (nov4 - 50 * Hour))
      (plainRequest "UTC") demoUser [timedEvent "Standup" "2024-11-04T04:50:00Z"] UTC
      rfl rfl rfl (by decide) rfl).1.trans (by decide),
   ((C3_until_label
      (demoWorld [timedEvent "Standup" "2024-11-04T04:50:00Z"] (nov4 - 50 * Hour))
      (plainRequest "UTC") demoUser [timedEvent "Standup" "2024-11-04T04:50:00Z"] UTC
      rfl rfl rfl (by decide) rfl).2.1 0 (timedEvent "Standup" "2024-11-04T04:50:00Z")
      (locateStamp nov4 none UTC) rfl).trans (by decide)⟩

/-- C4, the code at the failing input: the request is for New York, now is
2024-11-03 00:10 there and the event starts at 2024-11-03 23:50 there, written
`2024-11-04T04:50:00Z`.  The start, viewed in New York, is on the date of now
and the rounded remaining time is 24 h 40 min, but `Generate` prints the label
`1d` (and the date in UTC). -/
theorem C4_same_date_across_offsets :
    demoParseRFC3339 "2024-11-04T04:50:00Z" = some (1730695800 * 1000000000, none) ∧
    sameDate ((locateStamp (1730695800 * 1000000000) none newYork2024).In newYork2024)
      { ns := nov3, loc := newYork2024 } = true ∧
    Duration.Round (Until (locateStamp (1730695800 * 1000000000) none newYork2024) nov3) Minute
      = 24 * Hour + 40 * Minute ∧
    displayUntil (demoWorld [] nov3) newYork2024 0
      (timedEvent "Standup" "2024-11-04T04:50:00Z") = "1d" ∧
    Generate (demoWorld [timedEvent "Standup" "2024-11-04T04:50:00Z"] nov3)
      (plainRequest "America/New_York") = .ok "Standup\nMon, Nov 04, 04:50 1d\n\n" := by
  refine ⟨by decide, by decide, by decide, by decide!, by decide!⟩

/-- C5, the code at the failing input: the request is for Tokyo (UTC+9), now
is 2024-01-01 09:00 there and the event starts at `2024-01-01T23:30:00-05:00`,
which is 13:30 on January 2 in Tokyo.  `Generate` prints the date in the offset
of the string, January 1, 23:30. -/
theorem C5_display_in_event_offset :
    demoParseRFC3339 "2024-01-01T23:30:00-05:00"
      = some (1704169800 * 1000000000, some (-18000)) ∧
    displayDate (demoWorld [] jan1) (FixedZone 32400)
      (timedEvent "Call" "2024-01-01T23:30:00-05:00") = "Mon, Jan 01, 23:30" ∧
    ((locateStamp (1704169800 * 1000000000) (some (-18000)) (FixedZone 32400)).In
      (FixedZone 32400)).Format OutFmt.timed = "Tue, Jan 02, 13:30" ∧
    Generate (demoWorld [timedEvent "Call" "2024-01-01T23:30:00-05:00"] jan1)
      (plainRequest "Asia/Tokyo") = .ok "Call\nMon, Jan 01, 23:30 28h\n\n" := by
  refine ⟨by decide, by decide, by decide, by decide!⟩

/-- C6, refuted as stated: with a time zone name that does not resolve, an
empty event list still gives the message for an empty list and a list of
excluded events still gives the empty text, both without an error. -/
theorem C6_counterexample :
    demoLoadLocation "Mars/Olympus" = .error "unknown time zone Mars/Olympus" ∧
    Generate (demoWorld [] nov3) (plainRequest "Mars/Olympus")
      = .ok "No upcoming events found." ∧
    Generate (demoWorld [timedEvent "Lunch with Bob" "2024-11-03T23:50:00-05:00"] nov3)
      { lunchRequest with TimeZone := "Mars/Olympus" } = .ok "" := by
  refine ⟨rfl, by decide!, by decide!⟩

/-- C6, amended: with a time zone name that does not resolve, rendering fails
with the invalid time zone error and no text as soon as the event list holds an
event that no exclude pattern matches; an empty list gives the message for an
empty list and a list of excluded events only gives the empty text, both
without an error. -/
theorem C6_invalid_timezone (w : World) (c : CalendarRequest) (user : UserData)
    (items : List Event) (e : String)
    (hget : UserDataCache.Get w.driver w.userStore c.UUID = .ok user)
    (hsvc : w.NewService user = .ok ())
    (hev : w.EventsList c.MaxResults = .ok items)
    (hl : w.LoadLocation c.TimeZone = .error e) :
    ((∃ item ∈ items, excluded c item = false) →
      Generate w c = .error ("Invalid TZ (" ++ c.TimeZone ++ "): " ++ e)) ∧
    (items = [] → Generate w c = .ok "No upcoming events found.") ∧
    (items ≠ [] → (∀ item ∈ items, excluded c item = true) → Generate w c = .ok "") := by
  unfold Generate
  simp only [hget, hsvc, hev]
  refine ⟨?_, ?_, ?_⟩
  · intro hx
    have hlen : ¬ items.length = 0 := by
      obtain ⟨x, hm, _⟩ := hx
      intro h
      rw [List.length_eq_zero.mp h] at hm
      cases hm
    rw [if_neg hlen, renderLoop_tz_error w c user e hl items hx 0 ""]
  · intro hnil
    subst hnil
    rfl
  · intro hne hall
    have hlen : ¬ items.length = 0 := fun h => hne (List.length_eq_zero.mp h)
    rw [if_neg hlen, renderLoop_all_excluded w c user items hall 0 ""]

/-- C6 amended, at the three events of `demoItems` and the name
`Mars/Olympus`: the timed event `Standup` is not excluded and rendering fails. -/
theorem C6_invalid_timezone_witness :
    Generate (demoWorld demoItems nov3) { lunchRequest with TimeZone := "Mars/Olympus" }
      = .error "Invalid TZ (Mars/Olympus): unknown time zone Mars/Olympus" :=
  ((C6_invalid_timezone (demoWorld demoItems nov3)
      { lunchRequest with TimeZone := "Mars/Olympus" } demoUser demoItems
      "unknown time zone Mars/Olympus" rfl rfl rfl rfl).1
    ⟨allDayEvent "Conference" "2024-11-03", by decide, by decide⟩).trans (by decide)

/-- C7, refuted as stated: after `Prepare` of the highlight list
`Stand,red,Stand,blue`, a visit of the map in the order blue, red colours the
title `Standup` blue, while the first matching rule in declaration order is
red. -/
theorem C7_counterexample :
    Prepare litCompile highlightQuery = .ok highlightRequest ∧
    List.Perm highlightRequest.colorMap.reverse highlightRequest.colorMap ∧
    ColorTitle (demoWorld [] nov3) highlightRequest highlightRequest.colorMap.reverse
      "Standup" "needsAction" = "\x1b[34mStandup\x1b[0m" ∧
    specColorTitle (demoWorld [] nov3) highlightRequest.colorMap "Standup" "needsAction"
      = "\x1b[31mStandup\x1b[0m" := by
  refine ⟨rfl, List.reverse_perm _, by decide, by decide⟩

/-- C7, amended: with colouring enabled, `ColorTitle` returns the title in the
colour of the first rule, in the order in which the map is visited, whose
pattern matches and whose colour name is recognised, and the status colours
(green for accepted, red for declined, unchanged otherwise) without one; the
visiting order is a permutation of the declared rules, so the winning rule is a
declared qualifying rule and there is none exactly when no declared rule
qualifies. -/
theorem C7_color_title (w : World) (c : CalendarRequest) (order : List (Regexp × String))
    (s resp : String) (hcol : c.NoColor = false) (hperm : List.Perm order c.colorMap) :
    ColorTitle w c order s resp = specColorTitle w order s resp ∧
    (∀ rv, order.find? (fun rv => decide (rv.2 ∈ colorNames) && rv.1.MatchString s) = some rv →
      rv ∈ c.colorMap ∧ rv.2 ∈ colorNames ∧ rv.1.MatchString s = true) ∧
    (order.find? (fun rv => decide (rv.2 ∈ colorNames) && rv.1.MatchString s) = none ↔
      ∀ rv ∈ c.colorMap, ¬ (rv.2 ∈ colorNames ∧ rv.1.MatchString s = true)) := by
  refine ⟨?_, ?_, ?_⟩
  · unfold ColorTitle specColorTitle
    rw [hcol, rangeColorMap_eq_find]
    simp only [Bool.false_eq_true, if_false]
    cases order.find? (fun rv => decide (rv.2 ∈ colorNames) && rv.1.MatchString s) with
    | some rv => rfl
    | none =>
      simp only [Option.map_none']
      rw [callColor_known w "green" s (by decide), callColor_known w "red" s (by decide)]
  · intro rv h
    have hm := List.mem_of_find?_eq_some h
    have hq := List.find?_some h
    simp only [Bool.and_eq_true, decide_eq_true_eq] at hq
    exact ⟨hperm.mem_iff.mp hm, hq.1, hq.2⟩
  · rw [List.find?_eq_none]
    constructor
    · intro h rv hm
      have := h rv (hperm.mem_iff.mpr hm)
      simpa using this
    · intro h rv hm
      have := h rv (hperm.mem_iff.mp hm)
      simpa using this

/-- C7 amended, at the two rules for `Stand` visited in the order blue, red:
the title is blue. -/
theorem C7_color_title_witness :
    ColorTitle (demoWorld [] nov3) highlightRequest highlightRequest.colorMap.reverse
      "Standup" "needsAction" = "\x1b[34mStandup\x1b[0m" :=
  (C7_color_title (demoWorld [] nov3) highlightRequest highlightRequest.colorMap.reverse
    "Standup" "needsAction" rfl (List.reverse_perm _)).1.trans (by decide)

/-- C8: with colouring disabled `ColorTitle` returns the title unchanged,
whatever the rules, their visiting order and the response status. -/
theorem C8_no_color (w : World) (c : CalendarRequest) (order : List (Regexp × String))
    (s resp : String) (h : c.NoColor = true) : ColorTitle w c order s resp = s := by
  unfold ColorTitle
  rw [if_pos h]

/-- C8 at a request with a matching red rule and an accepted invitation. -/
theorem C8_no_color_witness :
    ColorTitle (demoWorld [] nov3) { highlightRequest with NoColor := true }
      highlightRequest.colorMap "Standup" "accepted" = "Standup" :=
  C8_no_color (demoWorld [] nov3) { highlightRequest with NoColor := true }
    highlightRequest.colorMap "Standup" "accepted" rfl

/-- C9: when `Add(u)` succeeds, `Get(u.ID)` on the resulting state succeeds
and returns `u`. -/
theorem C9_add_then_get {DB : Type} (drv : Driver DB) (c c1 : UserDataCache DB)
    (u : UserData) (hadd : UserDataCache.Add drv c u = .ok c1) :
    UserDataCache.Get drv c1 u.ID = .ok u := by
  unfold UserDataCache.Add at hadd
  cases hx : drv.execInsert c.db u.ID (u.Value drv.jsonEncode) with
  | error e => rw [hx] at hadd; cases hadd
  | ok db1 =>
    rw [hx] at hadd
    simp only [Except.ok.injEq] at hadd
    subst hadd
    unfold UserDataCache.Get
    simp

/-- C9 at the in-memory table, an empty cache and the record `demoUser`. -/
theorem C9_add_then_get_witness :
    UserDataCache.Get memDriver
      { cache := fun k => if k = demoUser.ID then some demoUser else none,
        db := [("u1", "u1 at")] } demoUser.ID = .ok demoUser :=
  C9_add_then_get memDriver { cache := fun _ => none, db := [] }
    { cache := fun k => if k = demoUser.ID then some demoUser else none,
      db := [("u1", "u1 at")] } demoUser rfl

/-- C10: after a successful `Prepare`, `MaxResults` is the minimum of its
former value and 50 (50 for every value above 50, unchanged for every value of
50 or less, zero and negative values included); `Generate` calls the event
source with that cap, returns its error when the call fails and renders the
events it returns, and consults the source at no other cap. -/
theorem C10_max_results (compile : String → Except String Regexp)
    (c c1 : CalendarRequest) (h : Prepare compile c = .ok c1) :
    c1.MaxResults = min c.MaxResults 50 ∧
    (c.MaxResults > 50 → c1.MaxResults = 50) ∧
    (c.MaxResults ≤ 50 → c1.MaxResults = c.MaxResults) ∧
    (∀ (w : World) (f : Int → Except String (List Event)),
      f (min c.MaxResults 50) = w.EventsList (min c.MaxResults 50) →
      Generate { w with EventsList := f } c1 = Generate w c1) ∧
    (∀ (w : World) (user : UserData),
      UserDataCache.Get w.driver w.userStore c1.UUID = .ok user →
      w.NewService user = .ok () →
      Generate w c1 =
        match w.EventsList (min c.MaxResults 50) with
        | .error e =>
          .error ("Unable to retrieve next ten of the user\x27s events: " ++ e ++ "\n")
        | .ok items =>
          if items.length = 0 then .ok "No upcoming events found."
          else renderLoop w c1 user 0 items "") := by
  have hm := Prepare_MaxResults compile c c1 h
  have hmin : c1.MaxResults = min c.MaxResults 50 := by
    rw [hm]
    split_ifs with h50
    · exact (min_eq_right (by omega)).symm
    · exact (min_eq_left (by omega)).symm
  refine ⟨hmin, ?_, ?_, ?_, ?_⟩
  · intro h50; rw [hm, if_pos h50]
  · intro h50; rw [hm, if_neg (by omega)]
  · intro w f hf
    unfold Generate
    simp only [hmin, hf, renderLoop_EventsList]
  · intro w user hget hsvc
    rw [Generate_EventsList w c1 user hget hsvc, hmin]

/-- C10 at a request for 70 results, which is prepared to 50, and at one for
-3 results, which is left at -3; the calendar of `capWorld` answers the cap 50
only, and `Generate` on the prepared request renders its events. -/
theorem C10_max_results_witness :
    (Prepare litCompile { lunchQuery with MaxResults := 70 }
        = .ok { lunchRequest with MaxResults := 50 } ∧
      ({ lunchRequest with MaxResults := 50 } : CalendarRequest).MaxResults
        = min ({ lunchQuery with MaxResults := 70 } : CalendarRequest).MaxResults 50) ∧
    (Prepare litCompile { lunchQuery with MaxResults := -3 }
        = .ok { lunchRequest with MaxResults := -3 } ∧
      ({ lunchRequest with MaxResults := -3 } : CalendarRequest).MaxResults
        = min ({ lunchQuery with MaxResults := -3 } : CalendarRequest).MaxResults 50) ∧
    Generate capWorld { lunchRequest with MaxResults := 50 }
      = .ok "Conference\nSun, Nov 03, Now\n\nStandup\nSun, Nov 03, 23:50 24h\n\n" ∧
    Generate capWorld { lunchRequest with MaxResults := 70 }
      = .error "Unable to retrieve next ten of the user\x27s events: cap 70\n" :=
  ⟨⟨rfl, (C10_max_results litCompile { lunchQuery with MaxResults := 70 }
      { lunchRequest with MaxResults := 50 } rfl).1⟩,
   ⟨rfl, (C10_max_results litCompile { lunchQuery with MaxResults := -3 }
      { lunchRequest with MaxResults := -3 } rfl).1⟩,
   ((C10_max_results litCompile { lunchQuery with MaxResults := 70 }
      { lunchRequest with MaxResults := 50 } rfl).2.2.2.2 capWorld demoUser rfl rfl).trans
      (by decide!),
   by decide!⟩

end TermCal
